import Mathlib

/-!
Shallow embedding of the FeedMe subscription core (`main.py`): the data
model, the Store (`load_subscriptions`, `truncate_episodes`,
`save_subscriptions`), the Reconciler (`update_all_feeds`), the Importer
(`import_opml`, `import_opml_file`) and the manual add (`add_new_feed`),
together with theorems settling the specification claims.

Python dictionaries are modelled as association lists in insertion order
(`dictSet` overwrites in place, `dictGet` finds the unique binding); the
episode-lookup dictionary of the merge is modelled as a function built by
a fold, later insertions shadowing earlier ones, exactly as repeated
`dict` assignment does.  A missing JSON key is an `Option` `none`; Python
truthiness of an optional string is `pyTruthy`.
-/

namespace FeedMe

/-- A media enclosure reference: `{href, type}` dictionaries. -/
structure Enclosure where
  href : Option String
  type : Option String
deriving DecidableEq, Repr

/-- A stored episode record, as persisted and as produced by the merge.
`link` is `none` when the `"link"` key is absent (Python `ep.get("link")`
returning `None`). -/
structure Episode where
  title : String
  published : String
  summary : String
  link : Option String
  enclosures : List Enclosure
  read : Bool
deriving DecidableEq, Repr

/-- A freshly fetched feed entry as delivered by the parser: every field
may be absent, the merge substitutes defaults (`entry.get(k, default)`). -/
structure Entry where
  title : Option String
  published : Option String
  summary : Option String
  link : Option String
  enclosures : List Enclosure
deriving DecidableEq, Repr

/-- One subscription's stored value: `{"url": ..., "episodes": [...]}`.
`url` is `none` when the key is absent (`feed_info.get("url")`). -/
structure Feed where
  url : Option String
  episodes : List Episode
deriving DecidableEq, Repr

/-- The subscription collection: a name-keyed dictionary in insertion
order, names unique in any state reachable through the program. -/
abbrev Collection := List (String × Feed)

def MAX_EPISODES : Nat := 100

def SUBSCRIPTIONS_FILE : String := "subscriptions.json"

/-- Python truthiness of an optional string: `None` and `""` are falsy. -/
def pyTruthy : Option String → Bool
  | none => false
  | some s => !s.isEmpty

/-- Python `a or b` on optional strings. -/
def pyOr (a b : Option String) : Option String :=
  if pyTruthy a then a else b

/-- Dictionary read: the binding of `k`, if any (`d.get(k)`). -/
def dictGet (d : Collection) (k : String) : Option Feed :=
  (d.find? (fun p => p.1 == k)).map Prod.snd

/-- Dictionary membership test (`k in d`). -/
def dictMem (d : Collection) (k : String) : Bool :=
  d.any (fun p => p.1 == k)

/-- Dictionary write `d[k] = v`: overwrite in place when the key exists,
append otherwise (insertion order preserved, as for a Python dict). -/
def dictSet (d : Collection) (k : String) (v : Feed) : Collection :=
  if d.any (fun p => p.1 == k) then
    d.map (fun p => if p.1 == k then (k, v) else p)
  else
    d ++ [(k, v)]

/-! ## Store -/

/-- Model of `load_subscriptions` (main.py 17-29), with the file system abstracted:
`filePresent` is `os.path.exists`, `parsed` the outcome of
`json.load` (`Except.error` when opening or parsing raises).  Both failure
paths fall through to `return {}` after logging, so the function is total:
no exception reaches the caller. -/
def load_subscriptions (filePresent : Bool)
    (parsed : Except String Collection) : Collection :=
  if filePresent then
    match parsed with
    | .ok feeds => feeds
    | .error _ => []
  else []

/-- The per-feed body of `truncate_episodes` (main.py 33-37): episode
lists longer than `MAX_EPISODES` are cut, shorter ones left alone. -/
def truncate_feed (f : Feed) : Feed :=
  if f.episodes.length > MAX_EPISODES then
    { f with episodes := f.episodes.take MAX_EPISODES }
  else f

/-- Model of `truncate_episodes` (main.py 31-37): every subscription's episode
list is bounded in place. -/
def truncate_episodes (feeds : Collection) : Collection :=
  feeds.map (fun p => (p.1, truncate_feed p.2))

/-- A file-system state: contents by path, `none` when absent. -/
def FsState : Type := String → Option String

/-- The primitive file operations `save_subscriptions` performs. -/
inductive FsOp where
  | openTrunc (path : String)
  | writeAll (path : String) (data : String)
deriving DecidableEq, Repr

/-- Effect of one file operation: `open(path, "w")` creates or truncates
the file to empty; a write appends the data to the current contents. -/
def applyOp (fs : FsState) : FsOp → FsState
  | .openTrunc p => fun q => if q = p then some "" else fs q
  | .writeAll p d => fun q => if q = p then some (((fs p).getD "") ++ d) else fs q

/-- Run a sequence of file operations from a starting state. -/
def run_ops (fs : FsState) (ops : List FsOp) : FsState :=
  ops.foldl applyOp fs

/-- Model of `save_subscriptions` (main.py 39-47) as its file-operation trace:
truncate the collection, then `open(SUBSCRIPTIONS_FILE, "w")` — which
immediately truncates the real file in place — then `json.dump` the
serialized truncated collection into it.  `serialize` abstracts
`json.dump`'s rendering.  Any exception is caught and logged, so the
trace is all that happens; a crash or failure stops the trace after a
prefix. -/
def save_ops (serialize : Collection → String) (feeds : Collection) :
    List FsOp :=
  [FsOp.openTrunc SUBSCRIPTIONS_FILE,
   FsOp.writeAll SUBSCRIPTIONS_FILE (serialize (truncate_episodes feeds))]

/-! ## Reconciler -/

/-- Outcome of `fetch_podcast`: `feedparser` marks failure with `bozo`,
which `update_all_feeds` tests; otherwise the parsed entries are used. -/
inductive FetchResult where
  | failure (msg : String)
  | success (entries : List Entry)
deriving DecidableEq, Repr

/-- One step of building the dict comprehension
`{ep.get("link"): ep for ep in episodes}`: a later binding for the same
key shadows an earlier one. -/
def dict_insert (d : Option String → Option Episode) (ep : Episode) :
    Option String → Option Episode :=
  fun k => if k == ep.link then some ep else d k

/-- The dict `old_episodes` (main.py 83): the link-keyed lookup over ALL previous
episodes — note there is no filtering of empty or absent links. -/
def old_episodes (prev : List Episode) : Option String → Option Episode :=
  prev.foldl dict_insert (fun _ => none)

/-- The prior read-state lookup of main.py 88, defaulting to `False`
when the link is unknown: the lookup key is the fresh entry's link
string, never `None`. -/
def read_status (prev : List Episode) (link : String) : Bool :=
  match old_episodes prev (some link) with
  | some ep => ep.read
  | none => false

/-- The merged episode built for one fresh entry (main.py 87-96). -/
def merge_entry (prev : List Episode) (entry : Entry) : Episode :=
  let link := entry.link.getD ""
  { title := entry.title.getD "No Title"
    published := entry.published.getD "No Publish Date"
    summary := entry.summary.getD "No Summary"
    link := some link
    enclosures := entry.enclosures
    read := read_status prev link }

/-- The merge loop of `update_all_feeds` (main.py 84-97): one merged
episode per fresh entry, in fetch order. -/
def merge_episodes (prev : List Episode) (entries : List Entry) :
    List Episode :=
  entries.map (merge_entry prev)

/-- The in-loop trim (main.py 100-102). -/
def trim_episodes (eps : List Episode) : List Episode :=
  if eps.length > MAX_EPISODES then eps.take MAX_EPISODES else eps

/-- The per-subscription body of `update_all_feeds` (main.py 75-103):
on fetch failure the previous record is kept verbatim; on success the
record is rebuilt from the same url and the trimmed merge. -/
def update_feed (fetch : Option String → FetchResult) (info : Feed) :
    Feed :=
  match fetch info.url with
  | .failure _ => info
  | .success entries =>
      { url := info.url
        episodes := trim_episodes (merge_episodes info.episodes entries) }

/-- Model of `update_all_feeds` (main.py 71-106): every subscription is processed
independently, the result dictionary taking one binding per input
binding in order. -/
def update_all_feeds (fetch : Option String → FetchResult)
    (feeds : Collection) : Collection :=
  feeds.map (fun p => (p.1, update_feed fetch p.2))

/-! ## Importer -/

/-- One OPML `outline` element's relevant attributes. -/
structure Outline where
  title : Option String
  text : Option String
  xmlUrl : Option String
deriving DecidableEq, Repr

/-- One iteration of the `import_opml` loop (main.py 55-61):
`title = outline.attrib.get("title") or outline.attrib.get("text")`, the
entry kept only when both title and url are truthy, a later entry with
the same name overwriting an earlier one in the result dict. -/
def import_step (feeds : Collection) (o : Outline) : Collection :=
  if pyTruthy (pyOr o.title o.text) && pyTruthy o.xmlUrl then
    dictSet feeds ((pyOr o.title o.text).getD "")
      { url := o.xmlUrl, episodes := [] }
  else feeds

/-- The whole import loop: one `import_step` per outline element, into
an initially empty dict. -/
def import_opml (outlines : List Outline) : Collection :=
  outlines.foldl import_step []

/-- The merge loop of `import_opml_file` (main.py 472-475): each imported
binding is assigned into the live collection, overwriting by name. -/
def import_opml_file (podcasts : Collection) (imported : Collection) :
    Collection :=
  imported.foldl (fun acc p => dictSet acc p.1 p.2) podcasts

/-! ## Manual add -/

/-- Observable outcome of `add_new_feed`. -/
inductive AddOutcome where
  | cancelled
  | duplicateWarned
  | added
deriving DecidableEq, Repr

/-- Model of `add_new_feed` (main.py 484-502): returns the new collection, the
outcome surfaced to the user, and whether `save_subscriptions` ran. -/
def add_new_feed (podcasts : Collection) (title url : Option String) :
    Collection × AddOutcome × Bool :=
  if !pyTruthy title then (podcasts, AddOutcome.cancelled, false)
  else if !pyTruthy url then (podcasts, AddOutcome.cancelled, false)
  else if dictMem podcasts (title.getD "") then
    (podcasts, AddOutcome.duplicateWarned, false)
  else
    (dictSet podcasts (title.getD "") { url := url, episodes := [] },
     AddOutcome.added, true)

/-! ## Concrete instances used to exercise the theorems -/

/-- A previous episode marked read, link `"a"`. -/
def c1prevEp : Episode :=
  { title := "Old", published := "d", summary := "s", link := some "a",
    enclosures := [], read := true }

def c1feed : Feed := { url := some "u", episodes := [c1prevEp] }

def c1feeds : Collection := [("P", c1feed)]

def c1entry : Entry :=
  { title := some "A2", published := none, summary := none,
    link := some "a", enclosures := [] }

def c1entries : List Entry := [c1entry]

def c1fetch : Option String → FetchResult :=
  fun _ => FetchResult.success c1entries

/-- A read episode with link `"a"` shadowed, in the link-keyed dict, by a
later unread episode with the same link. -/
def c1xEpRead : Episode :=
  { title := "E1", published := "d", summary := "s", link := some "a",
    enclosures := [], read := true }

def c1xEpStale : Episode :=
  { title := "E2", published := "d", summary := "s", link := some "a",
    enclosures := [], read := false }

def c1xFeed : Feed := { url := some "u", episodes := [c1xEpRead, c1xEpStale] }

def c1xFeeds : Collection := [("P", c1xFeed)]

def c1xEntries : List Entry :=
  [{ title := some "A", published := none, summary := none,
     link := some "a", enclosures := [] }]

def c1xFetch : Option String → FetchResult :=
  fun _ => FetchResult.success c1xEntries

/-- A previous episode stored with the EMPTY string as link, marked read. -/
def c2prevEp : Episode :=
  { title := "Old", published := "d", summary := "s", link := some "",
    enclosures := [], read := true }

def c2prev : List Episode := [c2prevEp]

/-- A fresh entry with no link at all. -/
def c2entry : Entry :=
  { title := some "New", published := none, summary := none,
    link := none, enclosures := [] }

def c2entries : List Entry := [c2entry]

def c2xFeeds : Collection := [("P", { url := some "u", episodes := c2prev })]

def c2xFetch : Option String → FetchResult :=
  fun _ => FetchResult.success c2entries

def c3entryA : Entry :=
  { title := some "A", published := none, summary := none,
    link := some "a", enclosures := [] }

def c3entryB : Entry :=
  { title := some "B", published := none, summary := none,
    link := some "b", enclosures := [] }

def c3entries : List Entry := [c3entryA, c3entryB]

def c3prev : List Episode :=
  [{ title := "P1", published := "d", summary := "s", link := some "a",
     enclosures := [], read := true }]

/-- Two fresh entries sharing one link. -/
def c3xEntries : List Entry :=
  [{ title := some "A", published := none, summary := none,
     link := some "a", enclosures := [] },
   { title := some "B", published := none, summary := none,
     link := some "a", enclosures := [] }]

def c3xFeeds : Collection := [("P", { url := some "u", episodes := [] })]

def c3xFetch : Option String → FetchResult :=
  fun _ => FetchResult.success c3xEntries

def c4feedA : Feed :=
  { url := some "a.rss",
    episodes := [{ title := "E", published := "d", summary := "s",
                   link := some "x", enclosures := [], read := true }] }

def c4feedB : Feed := { url := some "b.rss", episodes := [] }

def c4feeds : Collection := [("A", c4feedA), ("B", c4feedB)]

def c4entriesB : List Entry :=
  [{ title := some "New", published := none, summary := none,
     link := some "y", enclosures := [] }]

/-- A fetch oracle failing for feed A's url and succeeding for B's. -/
def c4fetch : Option String → FetchResult :=
  fun u => if u = some "a.rss" then FetchResult.failure "boom"
           else FetchResult.success c4entriesB

/-- A disk whose subscriptions file initially holds some old data. -/
def c5fs : FsState := fun _ => some "OLDDATA"

def c5serialize : Collection → String := fun _ => "NEWDATA"

def c8outlines : List Outline :=
  [{ title := some "Pod", text := none, xmlUrl := some "http://new" }]

def c8imported : Feed := { url := some "http://new", episodes := [] }

def c8podcasts : Collection :=
  [("Pod", { url := some "http://old",
             episodes := [{ title := "E", published := "d", summary := "s",
                            link := some "x", enclosures := [], read := true }] })]

def c9podcasts : Collection :=
  [("Pod", { url := some "http://old", episodes := [] })]

end FeedMe

namespace FeedMe

/-! ## Dictionary lemmas (shared helpers) -/

theorem old_episodes_foldl (prev : List Episode)
    (d : Option String → Option Episode) (k : Option String) :
    prev.foldl dict_insert d k =
      match prev.reverse.find? (fun ep => k == ep.link) with
      | some ep => some ep
      | none => d k := by
  induction prev generalizing d with
  | nil => simp
  | cons e rest ih =>
      rw [List.foldl_cons, ih (dict_insert d e), List.reverse_cons,
        List.find?_append]
      cases h : rest.reverse.find? (fun ep => k == ep.link) with
      | some x => simp [Option.or]
      | none =>
          cases hk : (k == e.link) with
          | true => simp [Option.or, hk, dict_insert]
          | false => simp [Option.or, hk, dict_insert]

/-- The merge's lookup dictionary is exactly "last previous episode whose
stored link equals the key". -/
theorem old_episodes_eq_find (prev : List Episode) (k : Option String) :
    old_episodes prev k = prev.reverse.find? (fun ep => k == ep.link) := by
  rw [old_episodes, old_episodes_foldl]
  cases h : prev.reverse.find? (fun ep => k == ep.link) <;> simp

theorem read_status_eq_find (prev : List Episode) (l : String) :
    read_status prev l =
      match prev.reverse.find? (fun ep => (some l : Option String) == ep.link) with
      | some ep => ep.read
      | none => false := by
  rw [read_status, old_episodes_eq_find]

theorem trim_mem {eps : List Episode} {m : Episode}
    (h : m ∈ trim_episodes eps) : m ∈ eps := by
  rw [trim_episodes] at h
  split at h
  · exact List.take_subset _ _ h
  · exact h

theorem trim_of_le {eps : List Episode} (h : eps.length ≤ MAX_EPISODES) :
    trim_episodes eps = eps := by
  rw [trim_episodes, if_neg (Nat.not_lt.mpr h)]

theorem truncate_feed_eq (f : Feed) :
    truncate_feed f =
      { url := f.url, episodes := f.episodes.take MAX_EPISODES } := by
  rw [truncate_feed]
  split
  · rfl
  · next h =>
      have ht : f.episodes.take MAX_EPISODES = f.episodes :=
        List.take_of_length_le (Nat.le_of_not_lt h)
      cases f
      simp_all

/-! ## Claim theorems -/

/-- Claim C6: `load_subscriptions` never raises (it is a total function
of the file-system observations): with the file absent it returns the
empty collection, and with the file present but unreadable or corrupt
(`json.load` raising, modelled as `Except.error`) it logs and returns the
empty collection; a successfully parsed file is returned as is. -/
theorem load_never_raises (parsed : Except String Collection)
    (msg : String) (feeds : Collection) :
    load_subscriptions false parsed = [] ∧
    load_subscriptions true (Except.error msg) = [] ∧
    load_subscriptions true (Except.ok feeds) = feeds := by
  refine ⟨rfl, rfl, rfl⟩

/-- Claim C7: truncation keeps, for every subscription, exactly the
first `MAX_EPISODES` entries of its episode list in original order (a
no-op when the list is already short enough, since then `take` is the
identity), and truncation is idempotent. -/
theorem truncate_first_max_and_idempotent (feeds : Collection) :
    truncate_episodes feeds =
      feeds.map (fun p =>
        (p.1, { url := p.2.url, episodes := p.2.episodes.take MAX_EPISODES })) ∧
    truncate_episodes (truncate_episodes feeds) = truncate_episodes feeds := by
  have h1 : ∀ (fs : Collection), truncate_episodes fs =
      fs.map (fun p =>
        (p.1, { url := p.2.url, episodes := p.2.episodes.take MAX_EPISODES })) := by
    intro fs
    rw [truncate_episodes]
    exact List.map_congr_left (fun p _ => by rw [truncate_feed_eq])
  refine ⟨h1 feeds, ?_⟩
  rw [h1 (truncate_episodes feeds), h1 feeds, List.map_map]
  exact List.map_congr_left (fun p _ => by
    simp [Function.comp, List.take_take])

/-- Claim C10: a refresh never adds or drops a subscription and never
changes a url: the result of `update_all_feeds` has exactly the input's
names, in order, and each subscription's url is unchanged. -/
theorem update_preserves_names_and_urls
    (fetch : Option String → FetchResult) (feeds : Collection) :
    (update_all_feeds fetch feeds).map Prod.fst = feeds.map Prod.fst ∧
    (update_all_feeds fetch feeds).map (fun p => p.2.url) =
      feeds.map (fun p => p.2.url) := by
  constructor
  · rw [update_all_feeds, List.map_map]
    rfl
  · rw [update_all_feeds, List.map_map]
    refine List.map_congr_left (fun p _ => ?_)
    show (update_feed fetch p.2).url = p.2.url
    rw [update_feed]
    cases h : fetch p.2.url <;> rfl

/-- Claim C1 (amended): in a successful refresh of a subscription, the
read flag carried into the merged list for a link is that of the LAST
previous episode stored under that link (the dict comprehension lets
later duplicates shadow earlier ones), and the matching fresh entry must
survive the in-loop trim, so at most `MAX_EPISODES` fresh entries are
assumed; under those conditions a read mark on a reappearing non-empty
link persists, and a previous episode whose link is absent from the
fresh entries leaves no episode with that link in the merged result. -/
theorem read_state_persists
    (fetch : Option String → FetchResult) (feeds : Collection)
    (n : String) (f : Feed) (entries : List Entry)
    (hmem : (n, f) ∈ feeds)
    (hfetch : fetch f.url = FetchResult.success entries) :
    ((n, ({ url := f.url,
            episodes := trim_episodes (merge_episodes f.episodes entries) } : Feed))
        ∈ update_all_feeds fetch feeds) ∧
    (∀ (l : String) (p : Episode), l ≠ "" →
      f.episodes.reverse.find? (fun ep => (some l : Option String) == ep.link)
        = some p →
      p.read = true →
      entries.length ≤ MAX_EPISODES →
      (∃ e ∈ entries, e.link.getD "" = l) →
      ∃ m ∈ trim_episodes (merge_episodes f.episodes entries),
        m.link = some l ∧ m.read = true) ∧
    (∀ q ∈ f.episodes,
      (∀ e ∈ entries, (some (e.link.getD "") : Option String) ≠ q.link) →
      ∀ m ∈ trim_episodes (merge_episodes f.episodes entries),
        m.link ≠ q.link) := by
  refine ⟨?_, ?_, ?_⟩
  · have h := List.mem_map_of_mem (fun p => (p.1, update_feed fetch p.2)) hmem
    rw [update_all_feeds]
    simpa [update_feed, hfetch] using h
  · intro l p hl hfind hread hlen hex
    obtain ⟨e, he, hel⟩ := hex
    refine ⟨merge_entry f.episodes e, ?_, ?_, ?_⟩
    · have hlen' : (merge_episodes f.episodes entries).length ≤ MAX_EPISODES := by
        rw [merge_episodes, List.length_map]
        exact hlen
      rw [trim_of_le hlen']
      exact List.mem_map_of_mem _ he
    · show some (e.link.getD "") = some l
      rw [hel]
    · show read_status f.episodes (e.link.getD "") = true
      rw [hel, read_status_eq_find, hfind]
      exact hread
  · intro q hq hnolink m hm
    have hm' := trim_mem hm
    rw [merge_episodes] at hm'
    obtain ⟨e, he, rfl⟩ := List.mem_map.mp hm'
    exact hnolink e he

/-- Claim C1 counterexample to the claim as stated: the previous list
holds a read episode with non-empty link `"a"` followed by an unread
duplicate of the same link; a fresh entry shares that link, yet the only
episode with link `"a"` in the merged output of `update_all_feeds` is
unread — the lookup kept the later duplicate, not the read one. -/
theorem read_state_persists_counterexample :
    c1xEpRead ∈ c1xFeed.episodes ∧ c1xEpRead.link = some "a" ∧
    ("a" : String) ≠ "" ∧ c1xEpRead.read = true ∧
    (∃ e ∈ c1xEntries, e.link.getD "" = "a") ∧
    ((update_all_feeds c1xFetch c1xFeeds).map
        (fun p => p.2.episodes.map (fun m => (m.link, m.read)))) =
      [[(some "a", false)]] := by
  decide

/-- Claim C1 witness: on a one-episode history read at link `"a"` and a
fresh entry with the same link, the merged list keeps the read mark. -/
theorem read_state_persists_witness :
    ∃ m ∈ trim_episodes (merge_episodes c1feed.episodes c1entries),
      m.link = some "a" ∧ m.read = true :=
  (read_state_persists c1fetch c1feeds "P" c1feed c1entries
      (by decide) rfl).2.1 "a" c1prevEp (by decide) (by decide) (by decide)
    (by decide) ⟨c1entry, by decide, by decide⟩

/-- Claim C2 (amended): a fresh entry whose link is absent or empty is
looked up under the EMPTY string, and the dict of main.py 83 is built
over ALL previous episodes, so the entry's merged read flag equals the
read flag of the last previous episode stored with the empty string as
link, defaulting to false only when no such previous episode exists
(previous episodes with an absent link key are keyed under `None` and
never matched by the string lookup). -/
theorem missing_link_lookup (prev : List Episode) (entries : List Entry)
    (e : Entry) (he : e ∈ entries)
    (hl : e.link = none ∨ e.link = some "") :
    merge_entry prev e ∈ merge_episodes prev entries ∧
    (merge_entry prev e).read =
      match prev.reverse.find? (fun ep => (some "" : Option String) == ep.link) with
      | some p => p.read
      | none => false := by
  constructor
  · exact List.mem_map_of_mem _ he
  · have hgd : e.link.getD "" = "" := by
      cases hl with
      | inl h => rw [h]; rfl
      | inr h => rw [h]; rfl
    show read_status prev (e.link.getD "") = _
    rw [hgd, read_status_eq_find]

/-- Claim C2 counterexample to the claim as stated: the history holds an
episode stored with the empty string as link and marked read; a fresh
entry with NO link is merged by `update_all_feeds` with `read = true`,
not false — the lookup dict was built over the empty-link episode too. -/
theorem missing_link_lookup_counterexample :
    c2entry.link = none ∧
    ((update_all_feeds c2xFetch c2xFeeds).map
        (fun p => p.2.episodes.map Episode.read)) = [[true]] := by
  decide

/-- Claim C2 witness: instantiating the amended claim on a history with
one read empty-link episode and one linkless fresh entry. -/
theorem missing_link_lookup_witness :
    merge_entry c2prev c2entry ∈ merge_episodes c2prev c2entries ∧
    (merge_entry c2prev c2entry).read =
      match c2prev.reverse.find? (fun ep => (some "" : Option String) == ep.link) with
      | some p => p.read
      | none => false :=
  missing_link_lookup c2prev c2entries c2entry (by decide) (Or.inl rfl)

/-- Claim C3 (amended): when the fresh entries carry pairwise distinct
effective links (the link string defaulted to empty), the merged list
has pairwise distinct links; the merged list is exactly one episode per
fresh entry in order, each carrying all freshly fetched fields (with the
source's defaults) and, as its only use of history, the read flag
resolved from the previous episodes.  Fresh duplicates are NOT collapsed
by the code, hence the distinctness assumption. -/
theorem merge_unique_links (prev : List Episode) (entries : List Entry)
    (h : (entries.map (fun e => e.link.getD "")).Nodup) :
    ((merge_episodes prev entries).map Episode.link).Nodup ∧
    merge_episodes prev entries = entries.map (merge_entry prev) ∧
    (∀ e ∈ entries,
      (merge_entry prev e).title = e.title.getD "No Title" ∧
      (merge_entry prev e).published = e.published.getD "No Publish Date" ∧
      (merge_entry prev e).summary = e.summary.getD "No Summary" ∧
      (merge_entry prev e).link = some (e.link.getD "") ∧
      (merge_entry prev e).enclosures = e.enclosures ∧
      (merge_entry prev e).read = read_status prev (e.link.getD "")) := by
  refine ⟨?_, rfl, fun e _ => ⟨rfl, rfl, rfl, rfl, rfl, rfl⟩⟩
  have hmap : (merge_episodes prev entries).map Episode.link
      = (entries.map (fun e => e.link.getD "")).map some := by
    rw [merge_episodes, List.map_map, List.map_map]
    rfl
  rw [hmap]
  exact h.map (Option.some_injective String)

/-- Claim C3 counterexample to the claim as stated: two fresh entries
with the same link are both retained by the merge, so the episode list
produced by `update_all_feeds` can contain two episodes with one link. -/
theorem merge_unique_links_counterexample :
    ∃ p ∈ update_all_feeds c3xFetch c3xFeeds,
      ¬ (p.2.episodes.map Episode.link).Nodup := by
  decide

/-- Claim C3 witness: instantiating the amended claim on two fresh
entries with distinct links against a one-episode history. -/
theorem merge_unique_links_witness :
    ((merge_episodes c3prev c3entries).map Episode.link).Nodup ∧
    merge_episodes c3prev c3entries = c3entries.map (merge_entry c3prev) ∧
    (∀ e ∈ c3entries,
      (merge_entry c3prev e).title = e.title.getD "No Title" ∧
      (merge_entry c3prev e).published = e.published.getD "No Publish Date" ∧
      (merge_entry c3prev e).summary = e.summary.getD "No Summary" ∧
      (merge_entry c3prev e).link = some (e.link.getD "") ∧
      (merge_entry c3prev e).enclosures = e.enclosures ∧
      (merge_entry c3prev e).read = read_status c3prev (e.link.getD "")) :=
  merge_unique_links c3prev c3entries (by decide)

/-- Claim C4: fetch-failure isolation in `update_all_feeds` — a
subscription whose fetch fails keeps its binding (name, url and entire
previous episode list) verbatim in the result, while a subscription
whose fetch succeeds gets its episode list replaced by the trimmed merge
of the fetch result; each subscription is processed independently, so
one failure never aborts the others. -/
theorem fetch_failure_isolation
    (fetch : Option String → FetchResult) (feeds : Collection)
    (n : String) (f : Feed) (hmem : (n, f) ∈ feeds) :
    (∀ msg, fetch f.url = FetchResult.failure msg →
      (n, f) ∈ update_all_feeds fetch feeds) ∧
    (∀ entries, fetch f.url = FetchResult.success entries →
      (n, ({ url := f.url,
             episodes := trim_episodes (merge_episodes f.episodes entries) } : Feed))
        ∈ update_all_feeds fetch feeds) := by
  have h := List.mem_map_of_mem (fun p => (p.1, update_feed fetch p.2)) hmem
  constructor
  · intro msg hf
    rw [update_all_feeds]
    simpa [update_feed, hf] using h
  · intro entries hf
    rw [update_all_feeds]
    simpa [update_feed, hf] using h

/-- Claim C4 witness: in one refresh over subscriptions A (fetch fails)
and B (fetch succeeds), A's binding is unchanged in the result and B's
episodes are replaced by the merge of its fetch result. -/
theorem fetch_failure_isolation_witness :
    (("A", c4feedA) ∈ update_all_feeds c4fetch c4feeds) ∧
    (("B", ({ url := c4feedB.url,
              episodes := trim_episodes (merge_episodes c4feedB.episodes c4entriesB) } : Feed))
        ∈ update_all_feeds c4fetch c4feeds) :=
  ⟨(fetch_failure_isolation c4fetch c4feeds "A" c4feedA (by decide)).1
      "boom" (by decide),
   (fetch_failure_isolation c4fetch c4feeds "B" c4feedB (by decide)).2
      c4entriesB (by decide)⟩

/-- Claim C5 (amended): `save_subscriptions` applies truncation first and
then writes the serialization of the truncated collection directly into
`subscriptions.json` IN PLACE — `open(..., "w")` truncates the real file
before `json.dump` runs, there is no temporary file and no rename — so
after the full trace the file holds the new serialization, but at the
crash point between open and dump the file is empty, neither the prior
contents nor the new ones; exceptions during the write are caught and
only logged. -/
theorem save_in_place (fs : FsState) (serialize : Collection → String)
    (feeds : Collection) :
    run_ops fs (save_ops serialize feeds) SUBSCRIPTIONS_FILE
      = some (serialize (truncate_episodes feeds)) ∧
    run_ops fs ((save_ops serialize feeds).take 1) SUBSCRIPTIONS_FILE
      = some "" := by
  constructor
  · simp [run_ops, save_ops, applyOp]
  · simp [run_ops, save_ops, applyOp]

/-- Claim C5 counterexample to the claim as stated: starting from a disk
whose subscriptions file holds old data, stopping the write trace of
`save_subscriptions` right after the `open(..., "w")` leaves the file
EMPTY — neither the prior on-disk state nor the new contents — so the
write is not transactional and a failure does not leave the prior state
untouched. -/
theorem save_in_place_counterexample :
    c5fs SUBSCRIPTIONS_FILE = some "OLDDATA" ∧
    run_ops c5fs (save_ops c5serialize []) SUBSCRIPTIONS_FILE
      = some "NEWDATA" ∧
    run_ops c5fs ((save_ops c5serialize []).take 1) SUBSCRIPTIONS_FILE
      = some "" ∧
    (some "" : Option String) ≠ some "OLDDATA" ∧
    (some "" : Option String) ≠ some "NEWDATA" := by
  decide

/-- Claim C9: manually adding a feed whose title is already a key of the
collection aborts with the duplicate warning: the collection is returned
unchanged and `save_subscriptions` is not called. -/
theorem duplicate_add_rejected (podcasts : Collection)
    (title url : Option String)
    (ht : pyTruthy title = true) (hu : pyTruthy url = true)
    (hdup : dictMem podcasts (title.getD "") = true) :
    add_new_feed podcasts title url =
      (podcasts, AddOutcome.duplicateWarned, false) := by
  rw [add_new_feed]
  simp [ht, hu, hdup]

/-- Claim C9 witness: adding a feed named `"Pod"` to a collection that
already has a `"Pod"` entry changes nothing and saves nothing. -/
theorem duplicate_add_rejected_witness :
    add_new_feed c9podcasts (some "Pod") (some "http://other") =
      (c9podcasts, AddOutcome.duplicateWarned, false) :=
  duplicate_add_rejected c9podcasts (some "Pod") (some "http://other")
    (by decide) (by decide) (by decide)

theorem find?_map_overwrite (d : Collection) (k : String) (v : Feed) :
    dictGet (d.map (fun p => if p.1 == k then (k, v) else p)) k =
      if d.any (fun p => p.1 == k) then some v else none := by
  induction d with
  | nil => rfl
  | cons q rest ih =>
      rw [List.map_cons, List.any_cons]
      cases hq : (q.1 == k) with
      | true =>
          simp only [hq, Bool.true_or, if_true]
          simp [dictGet, List.find?]
      | false =>
          simp only [hq, Bool.false_or]
          simpa [dictGet, List.find?, hq] using ih

theorem dictGet_dictSet_self (d : Collection) (k : String) (v : Feed) :
    dictGet (dictSet d k v) k = some v := by
  rw [dictSet]
  split
  · next hany => rw [find?_map_overwrite, if_pos hany]
  · next hany =>
      have hnone : d.find? (fun p => p.1 == k) = none := by
        rw [List.find?_eq_none]
        intro p hp hpk
        exact hany (List.any_eq_true.mpr ⟨p, hp, hpk⟩)
      rw [dictGet, List.find?_append, hnone]
      simp [List.find?]

theorem dictGet_map_overwrite_ne (d : Collection) (k : String) (v : Feed)
    (n : String) (hne : n ≠ k) :
    dictGet (d.map (fun p => if p.1 == k then (k, v) else p)) n =
      dictGet d n := by
  induction d with
  | nil => rfl
  | cons q rest ih =>
      rw [List.map_cons]
      cases hq : (q.1 == k) with
      | true =>
          have hq1 : q.1 = k := eq_of_beq hq
          have hkn : ((k : String) == n) = false :=
            beq_eq_false_iff_ne.mpr (fun h => hne h.symm)
          have hqn : (q.1 == n) = false := by rw [hq1]; exact hkn
          simpa [dictGet, List.find?, hq, hkn, hqn] using ih
      | false =>
          cases hqn : (q.1 == n) with
          | true => simp [dictGet, List.find?, hq, hqn]
          | false => simpa [dictGet, List.find?, hq, hqn] using ih

theorem dictGet_dictSet_ne (d : Collection) (k : String) (v : Feed)
    (n : String) (hne : n ≠ k) :
    dictGet (dictSet d k v) n = dictGet d n := by
  rw [dictSet]
  split
  · exact dictGet_map_overwrite_ne d k v n hne
  · have hsing : ([(k, v)] : Collection).find? (fun p => p.1 == n) = none := by
      have : ((k : String) == n) = false :=
        beq_eq_false_iff_ne.mpr (fun h => hne h.symm)
      simp [List.find?, this]
    rw [dictGet, dictGet, List.find?_append, hsing]
    simp

theorem import_foldl_get_notmem (imp : Collection) :
    ∀ (acc : Collection) (n : String), n ∉ imp.map Prod.fst →
      dictGet (imp.foldl (fun acc p => dictSet acc p.1 p.2) acc) n =
        dictGet acc n := by
  induction imp with
  | nil => intro acc n _; rfl
  | cons q rest ih =>
      intro acc n h
      rw [List.map_cons, List.mem_cons, not_or] at h
      rw [List.foldl_cons, ih _ n h.2]
      exact dictGet_dictSet_ne acc q.1 q.2 n h.1

theorem import_foldl_get_mem (imp : Collection) :
    ∀ (acc : Collection) (n : String) (i : Feed),
      (imp.map Prod.fst).Nodup → (n, i) ∈ imp →
      dictGet (imp.foldl (fun acc p => dictSet acc p.1 p.2) acc) n = some i := by
  induction imp with
  | nil => intro acc n i _ h; cases h
  | cons q rest ih =>
      intro acc n i hnodup hmem
      rw [List.map_cons, List.nodup_cons] at hnodup
      rw [List.foldl_cons]
      rcases List.mem_cons.mp hmem with heq | hrest
      · subst heq
        rw [import_foldl_get_notmem rest _ n hnodup.1]
        exact dictGet_dictSet_self acc n i
      · exact ih _ n i hnodup.2 hrest

theorem dictSet_keys_nodup (d : Collection) (k : String) (v : Feed)
    (hd : (d.map Prod.fst).Nodup) :
    ((dictSet d k v).map Prod.fst).Nodup := by
  rw [dictSet]
  split
  · next hany =>
      have hkeys : (d.map (fun p => if p.1 == k then (k, v) else p)).map Prod.fst
          = d.map Prod.fst := by
        rw [List.map_map]
        refine List.map_congr_left (fun p _ => ?_)
        cases hq : (p.1 == k) with
        | true =>
            simp only [Function.comp, hq, if_true]
            exact (eq_of_beq hq).symm
        | false => simp [Function.comp, hq]
      rw [hkeys]
      exact hd
  · next hany =>
      rw [List.map_append, List.nodup_append]
      refine ⟨hd, List.nodup_singleton _, ?_⟩
      intro a ha hb
      have hak : a = k := by simpa using hb
      obtain ⟨p, hp, hp1⟩ := List.mem_map.mp ha
      refine hany (List.any_eq_true.mpr ⟨p, hp, ?_⟩)
      rw [hp1, hak]
      exact beq_self_eq_true k

theorem dictSet_vals_empty (d : Collection) (k : String) (v : Feed)
    (hd : ∀ q ∈ d, q.2.episodes = []) (hv : v.episodes = []) :
    ∀ q ∈ dictSet d k v, q.2.episodes = [] := by
  rw [dictSet]
  split
  · intro q hq
    obtain ⟨p, hp, rfl⟩ := List.mem_map.mp hq
    cases hpk : (p.1 == k) with
    | true => simp [hpk, hv]
    | false =>
        simp only [hpk, if_neg, Bool.false_eq_true, not_false_eq_true]
        exact hd p hp
  · intro q hq
    rcases List.mem_append.mp hq with h | h
    · exact hd q h
    · rw [List.mem_singleton] at h
      rw [h]
      exact hv

theorem import_step_inv (acc : Collection) (o : Outline)
    (h1 : (acc.map Prod.fst).Nodup) (h2 : ∀ q ∈ acc, q.2.episodes = []) :
    ((import_step acc o).map Prod.fst).Nodup ∧
      ∀ q ∈ import_step acc o, q.2.episodes = [] := by
  rw [import_step]
  split
  · exact ⟨dictSet_keys_nodup _ _ _ h1, dictSet_vals_empty _ _ _ h2 rfl⟩
  · exact ⟨h1, h2⟩

/-- The import parse builds a proper dictionary: names are unique and
every imported record has an empty episode list. -/
theorem import_opml_inv (outlines : List Outline) :
    ((import_opml outlines).map Prod.fst).Nodup ∧
    ∀ q ∈ import_opml outlines, q.2.episodes = [] := by
  rw [import_opml]
  have haux : ∀ (os : List Outline) (acc : Collection),
      (acc.map Prod.fst).Nodup → (∀ q ∈ acc, q.2.episodes = []) →
      (((os.foldl import_step acc).map Prod.fst).Nodup ∧
        ∀ q ∈ os.foldl import_step acc, q.2.episodes = []) := by
    intro os
    induction os with
    | nil => intro acc h1 h2; exact ⟨h1, h2⟩
    | cons o rest ih =>
        intro acc h1 h2
        rw [List.foldl_cons]
        have hstep := import_step_inv acc o h1 h2
        exact ih _ hstep.1 hstep.2
  exact haux outlines [] (by simp) (by simp)

/-- Claim C8: importing an entry whose name matches an existing
subscription replaces that subscription entirely: after the import loop
of `import_opml_file`, the name maps to exactly the imported record,
whose url is the imported url and whose episode list is empty — the
previous history is discarded. -/
theorem import_overwrite (podcasts : Collection) (outlines : List Outline)
    (n : String) (i : Feed)
    (hmem : (n, i) ∈ import_opml outlines)
    (_hex : dictMem podcasts n = true) :
    dictGet (import_opml_file podcasts (import_opml outlines)) n = some i ∧
    i.episodes = [] := by
  have hinv := import_opml_inv outlines
  refine ⟨?_, hinv.2 (n, i) hmem⟩
  rw [import_opml_file]
  exact import_foldl_get_mem (import_opml outlines) podcasts n i hinv.1 hmem

/-- Claim C8 witness: importing an outline named `"Pod"` over a
collection that already has a `"Pod"` subscription with history leaves
`"Pod"` bound to the imported url with an empty episode list. -/
theorem import_overwrite_witness :
    dictGet (import_opml_file c8podcasts (import_opml c8outlines)) "Pod"
      = some c8imported ∧
    c8imported.episodes = [] :=
  import_overwrite c8podcasts c8outlines "Pod" c8imported
    (by decide) (by decide)

end FeedMe
